import Mathlib

set_option maxHeartbeats 1000000
set_option maxRecDepth 8192

/-!
Verification of the owner-side orchestration layer of the encrypted
range-query database (owner.go): the dyadic range-cover codec, the
insertion-token construction `retriveTkns`, the query operations
`FindB`/`FindB2`, the batch operation `Insert`, and the delegation
operations `DelegateKeys`/`GenSearcherConfig`.

External primitives (the mfast searchable-index engine, the FAME ABE
engine, bson/json serialization, and the remote-store RPC client) are
modelled as explicit oracle environments: each Go call that can fail is a
field of the environment returning `Except String`, mirroring Go's
`(value, error)` convention, and each call whose error is ignored by the
Go code is modelled exactly as the code treats it.
-/

namespace Db

/-- A node of the depth-64 binary trie over 64-bit timestamps: `level` in
[0,63]; `pre` is the timestamp value shifted right by `level` (the spec's
IndexLabel). -/
structure IndexLabel where
  level : Nat
  pre : Nat
deriving DecidableEq

/-- Modelled from the spec: `makeTimeKW` (called at owner.go:411 but
defined outside src/) builds a level-qualified encoding of the shifted
time value; we model the encoded keyword as the IndexLabel pair itself,
which is exactly the information the spec says the encoding carries. -/
def makeTimeKW (p i : Nat) : IndexLabel := ⟨i, p⟩

/-- Modelled from the spec: one step of the dyadic range-cover
decomposition (`rangeCover` in the spec; the body of `getBRCKWs`, which
owner.go:208 calls but which is defined outside src/). At each trie level
it peels off an unaligned endpoint node, then recurses on the halved
range one level up; levels are capped at 63, where the only two nodes
(prefixes 0 and 1) are emitted directly. Structural recursion on a fuel
argument; fuel 64 suffices for 64-bit inputs. -/
def brcAux : Nat → Nat → Nat → Nat → List IndexLabel
  | 0, _, _, _ => []
  | fuel+1, level, a, b =>
    if b < a then []
    else if a = b then [⟨level, a⟩]
    else if 63 ≤ level then [⟨level, a⟩, ⟨level, b⟩]
    else
      (if a % 2 = 1 then [⟨level, a⟩] else []) ++
      (if b % 2 = 0 then [⟨level, b⟩] else []) ++
      brcAux fuel (level+1) ((a+1)/2) ((b-1)/2)

/-- Modelled from the spec: `getBRCKWs a b` is the minimal dyadic cover
of the interval [a,b] of 64-bit values. -/
def getBRCKWs (a b : Nat) : List IndexLabel := brcAux 64 0 a b

/-- Go's `uint64(t)` applied to an `int64` unix time (owner.go:208,409):
reduction modulo 2^64. -/
def toUint64 (t : Int) : Nat := (t % (2^64 : Int)).toNat

/-- The 64 per-level time keywords built by `retriveTkns`
(owner.go:408-412): `kws[i] = makeTimeKW(intTime >> i, i)` for
`i = 0..63`; this is the spec's `insertionLabels`. -/
def retriveTknsKWs (intTime : Nat) : List IndexLabel :=
  (List.range 64).map (fun i => makeTimeKW (intTime >>> i) i)

/-- A full index keyword as assembled by owner.go: a textual dimension
part such as `"A:" ++ userId ++ ":"` or `"B:" ++ location ++ ":"`
(owner.go:211,415,423) followed by the `makeTimeKW` time encoding. -/
structure KW where
  text : String
  timeKW : IndexLabel
deriving DecidableEq

/-- A cleartext input record (owner.go / db.go); `Time` is the record's
unix-seconds timestamp `rec.Time.Unix()` as a mathematical integer. -/
structure Record where
  UserId : String
  Location : String
  Set : String
  Time : Int
deriving DecidableEq

/-- One update-token request as issued to `mfastOwner.GenUpdateTkn`
(owner.go:415,423): document id, partition (`Set`), keyword, operation. -/
structure UpdReq where
  id : String
  set : String
  kw : KW
  op : String
deriving DecidableEq

/-- The sequence of update-token requests issued by `retriveTkns`
(owner.go:407-435): for each of the 64 per-level keywords, one request
for dimension "A" with the record's UserId and then one for dimension
"B" with the record's Location, both with operation "add". -/
def retriveTknReqs (id : String) (rec : Record) : List UpdReq :=
  (retriveTknsKWs (toUint64 rec.Time)).flatMap (fun kw =>
    [⟨id, rec.Set, ⟨"A:" ++ rec.UserId ++ ":", kw⟩, "add"⟩,
     ⟨id, rec.Set, ⟨"B:" ++ rec.Location ++ ":", kw⟩, "add"⟩])

/-- Opaque binary blobs (marshalled tokens, documents, ciphertexts). -/
abbrev ByteStr := List Nat

/-- Abstract handle for an mfast search token. -/
abbrev STkn := Nat

/-- Abstract handle for an ABE (FAME) ciphertext value. -/
abbrev Cipher := Nat

/-- Abstract handle for an ABE attribute key. -/
abbrev AttrKey := Nat

/-- Abstract handle for an mfast update token. -/
abbrev UpdTkn := Nat

/-- Abstract handle for a compiled monotone access structure
(`abe.BooleanToMSP` output, owner.go:127). -/
abbrev MSP := Nat

/-- A bson document as seen after `bson.Unmarshal` (owner.go:262): a map
from field name to the `primitive.Binary` payload of that field. -/
structure BsonDoc where
  fields : String → ByteStr

/-- The Find RPC request (db.proto): requested cleartext field names plus
marshalled search tokens. -/
structure FindQuery where
  fields : List String
  tkns : List ByteStr
deriving DecidableEq

/-- The Find RPC response (db.proto): a status message and the matched
documents as opaque binaries. -/
structure FindResponse where
  msg : String
  docs : List ByteStr
deriving DecidableEq

/-- Oracle environment for `FindB`/`FindB2`: the external primitives the
two query methods call, in owner.go order. `jsonUnmarshalCipher` is
total because owner.go:270,350-352 discards the `json.Unmarshal` error;
`decrypt` failures are likewise handled exactly as the code does at each
call site. -/
structure FindEnv where
  genSearchTkn : String → KW → Except String (Option STkn)
  bsonMarshalTkn : STkn → Except String ByteStr
  find : FindQuery → Except String FindResponse
  bsonUnmarshalDoc : ByteStr → Except String BsonDoc
  jsonUnmarshalCipher : ByteStr → Cipher
  genAttribKeys : String → Except String AttrKey
  decrypt : Cipher → AttrKey → Except String String

/-- Result row of `FindB` (only the UserId field is requested). -/
structure FindBResult where
  UserId : String
deriving DecidableEq

/-- Result row of `FindB2` (UserId and Set are requested). -/
structure FindB2Result where
  UserId : String
  Set : String
deriving DecidableEq

/-- Go's error-check sequencing: run `x`; on error return it immediately
(`if err != nil { return err }`), otherwise continue with the value. -/
def eBind {α β : Type} (x : Except String α) (f : α → Except String β) :
    Except String β :=
  match x with
  | .error e => .error e
  | .ok a => f a

/-- The query keywords of `FindB`/`FindB2` (owner.go:208-212,288-292):
one wrapped keyword `"B:" ++ loc ++ ":"` + time-keyword per label of the
range cover of `[uint64(timeA), uint64(timeB)]`. -/
def findKWs (loc : String) (timeA timeB : Int) : List KW :=
  (getBRCKWs (toUint64 timeA) (toUint64 timeB)).map
    (fun tKW => ⟨"B:" ++ loc ++ ":", tKW⟩)

/-- The trapdoor-generation loop of `FindB`/`FindB2`
(owner.go:218-230,298-310): a `GenSearchTkn` error aborts, a nil token is
skipped (`continue`), otherwise the token is bson-marshalled (an error
aborts) and appended. -/
def genFindTkns (env : FindEnv) (set : String) : List KW → Except String (List ByteStr)
  | [] => .ok []
  | kw :: rest =>
    match env.genSearchTkn set kw with
    | .error e => .error e
    | .ok none => genFindTkns env set rest
    | .ok (some tkn) =>
      eBind (env.bsonMarshalTkn tkn) fun b =>
      eBind (genFindTkns env set rest) fun tkns =>
      .ok (b :: tkns)

/-- The per-document result loop of `FindB` (owner.go:258-284): a
`bson.Unmarshal` failure aborts the whole result set; the UserId cipher
is json-unmarshalled with the error discarded; `GenerateAttribKeys` is
re-run per document and its failure aborts; the `Decrypt` error is
discarded (`userId, _ :=`), leaving Go's zero value `""` on failure. -/
def findBDocs (env : FindEnv) (set : String) : List ByteStr → Except String (List FindBResult)
  | [] => .ok []
  | bDoc :: rest =>
    eBind (env.bsonUnmarshalDoc bDoc) fun doc =>
    eBind (env.genAttribKeys set) fun abeAttrK =>
    eBind (findBDocs env set rest) fun res =>
    .ok (⟨match env.decrypt (env.jsonUnmarshalCipher (doc.fields "UserId")) abeAttrK with
          | .ok s => s
          | .error _ => ""⟩ :: res)

/-- `FindB` (owner.go:207-285): build the range-cover keywords, generate
trapdoors, submit a Find query for field `UserId`, check the status, and
decrypt each returned document. -/
def FindB (env : FindEnv) (set loc : String) (timeA timeB : Int) :
    Except String (List FindBResult) :=
  eBind (genFindTkns env set (findKWs loc timeA timeB)) fun findTkns =>
  eBind (env.find ⟨["UserId"], findTkns⟩) fun findRes =>
  if findRes.msg ≠ "Ok" then .error findRes.msg
  else findBDocs env set findRes.docs

/-- The per-document result loop of `FindB2` (owner.go:338-368): same as
`findBDocs` plus the json-unmarshalling and decryption (errors equally
discarded) of the Set field. -/
def findB2Docs (env : FindEnv) (set : String) : List ByteStr → Except String (List FindB2Result)
  | [] => .ok []
  | bDoc :: rest =>
    eBind (env.bsonUnmarshalDoc bDoc) fun doc =>
    eBind (env.genAttribKeys set) fun abeAttrK =>
    eBind (findB2Docs env set rest) fun res =>
    .ok (⟨match env.decrypt (env.jsonUnmarshalCipher (doc.fields "UserId")) abeAttrK with
          | .ok s => s
          | .error _ => "",
          match env.decrypt (env.jsonUnmarshalCipher (doc.fields "Set")) abeAttrK with
          | .ok s => s
          | .error _ => ""⟩ :: res)

/-- `FindB2` (owner.go:287-369): identical to `FindB` except that the
query requests fields `UserId` and `Set` and both are decrypted. -/
def FindB2 (env : FindEnv) (set loc : String) (timeA timeB : Int) :
    Except String (List FindB2Result) :=
  eBind (genFindTkns env set (findKWs loc timeA timeB)) fun findTkns =>
  eBind (env.find ⟨["UserId", "Set"], findTkns⟩) fun findRes =>
  if findRes.msg ≠ "Ok" then .error findRes.msg
  else findB2Docs env set findRes.docs

/-- Modelled from the spec: the per-document loop of the single
parameterized `FindRange` operation of §4.4/§9, decrypting each
requested field by name with the reference error behaviour. -/
def findRangeDocs (env : FindEnv) (set : String) (reqFields : List String) :
    List ByteStr → Except String (List (List String))
  | [] => .ok []
  | bDoc :: rest =>
    eBind (env.bsonUnmarshalDoc bDoc) fun doc =>
    eBind (env.genAttribKeys set) fun abeAttrK =>
    eBind (findRangeDocs env set reqFields rest) fun res =>
    .ok ((reqFields.map (fun f =>
      match env.decrypt (env.jsonUnmarshalCipher (doc.fields f)) abeAttrK with
      | .ok s => s
      | .error _ => "")) :: res)

/-- Modelled from the spec: the single parameterized range-find operation
(§4.4 FindRange; §9 models the two near-duplicate query methods as one
operation parameterized by `requestedFields`). -/
def FindRange (env : FindEnv) (set loc : String) (timeA timeB : Int)
    (reqFields : List String) : Except String (List (List String)) :=
  eBind (genFindTkns env set (findKWs loc timeA timeB)) fun findTkns =>
  eBind (env.find ⟨reqFields, findTkns⟩) fun findRes =>
  if findRes.msg ≠ "Ok" then .error findRes.msg
  else findRangeDocs env set reqFields findRes.docs

/-- The encrypted document assembled by `Insert` for one record
(owner.go:119-166): fresh object id plus the four json-marshalled ABE
ciphertext fields. -/
structure EncDoc where
  id : String
  userId : ByteStr
  location : ByteStr
  time : ByteStr
  set : ByteStr
deriving DecidableEq

/-- The Insert RPC request (db.proto): marshalled documents and tokens. -/
structure InsertQuery where
  docs : List ByteStr
  tkns : List ByteStr
deriving DecidableEq

/-- The Insert RPC response (db.proto): a status message. -/
structure InsertResponse where
  msg : String
deriving DecidableEq

/-- Oracle environment for `Insert`: the external primitives in owner.go
order. `newObjectId` models `primitive.NewObjectID()` as an oracle of
the record's batch position; `formatTime` models
`rec.Time.Format(time.RFC1123)` (owner.go:149). -/
structure InsertEnv where
  newObjectId : Nat → String
  genUpdateTkn : UpdReq → Except String UpdTkn
  jsonMarshalTkn : UpdTkn → Except String ByteStr
  booleanToMSP : String → Except String MSP
  encrypt : String → MSP → Except String Cipher
  jsonMarshalCipher : Cipher → Except String ByteStr
  formatTime : Int → String
  bsonMarshalDoc : EncDoc → Except String ByteStr
  insert : InsertQuery → Except String InsertResponse

/-- The token-generation loop body of `retriveTkns` (owner.go:414-432):
generate and json-marshal an update token per request, aborting on the
first error. -/
def genUpdTkns (env : InsertEnv) : List UpdReq → Except String (List ByteStr)
  | [] => .ok []
  | req :: rest =>
    eBind (env.genUpdateTkn req) fun tkn =>
    eBind (env.jsonMarshalTkn tkn) fun b =>
    eBind (genUpdTkns env rest) fun bs =>
    .ok (b :: bs)

/-- `retriveTkns` (owner.go:407-435): the marshalled update tokens for
one record. -/
def retriveTkns (env : InsertEnv) (id : String) (rec : Record) :
    Except String (List ByteStr) :=
  genUpdTkns env (retriveTknReqs id rec)

/-- The per-record body of the `Insert` loop (owner.go:114-180): update
tokens, one `BooleanToMSP` policy compilation from the record's Set
label, four field encryptions under that policy, their json
marshallings, and the final bson marshalling, each aborting on error. -/
def encRecord (env : InsertEnv) (i : Nat) (rec : Record) :
    Except String (ByteStr × List ByteStr) :=
  eBind (retriveTkns env (env.newObjectId i) rec) fun partTkns =>
  eBind (env.booleanToMSP rec.Set) fun msp =>
  eBind (env.encrypt rec.UserId msp) fun newUserId =>
  eBind (env.jsonMarshalCipher newUserId) fun bUid =>
  eBind (env.encrypt rec.Location msp) fun newLoc =>
  eBind (env.jsonMarshalCipher newLoc) fun bLoc =>
  eBind (env.encrypt (env.formatTime rec.Time) msp) fun newTime =>
  eBind (env.jsonMarshalCipher newTime) fun bTime =>
  eBind (env.encrypt rec.Set msp) fun newSet =>
  eBind (env.jsonMarshalCipher newSet) fun bSet =>
  eBind (env.bsonMarshalDoc ⟨env.newObjectId i, bUid, bLoc, bTime, bSet⟩) fun bytesRec =>
  .ok (bytesRec, partTkns)

/-- The whole `Insert` batch loop (owner.go:112-180): documents in order,
tokens concatenated across records, first error aborts. -/
def encRecords (env : InsertEnv) : Nat → List Record → Except String (List ByteStr × List ByteStr)
  | _, [] => .ok ([], [])
  | i, rec :: rest =>
    eBind (encRecord env i rec) fun docTkns =>
    eBind (encRecords env (i+1) rest) fun docsTkns =>
    .ok (docTkns.1 :: docsTkns.1, docTkns.2 ++ docsTkns.2)

/-- `Insert` (owner.go:111-205): encrypt and tag the whole batch, then
make the single Insert RPC; a transport error or a non-"Ok" status is
returned as the error, otherwise success. -/
def Insert (env : InsertEnv) (recs : List Record) : Except String Unit :=
  eBind (encRecords env 0 recs) fun docsTkns =>
  eBind (env.insert ⟨docsTkns.1, docsTkns.2⟩) fun res =>
  if res.msg ≠ "Ok" then .error res.msg else .ok ()

/-- Abstract handle for the ABE master secret key. -/
abbrev SecKey := Nat

/-- Abstract handle for the ABE public key. -/
abbrev PubKey := Nat

/-- Abstract handle for the delegated mfast partition credential. -/
abbrev MFKeys := Nat

/-- `DelegatedKeys` (fields as constructed at owner.go:382-387):
partition name, index-delegation secret, attribute key, public key. -/
structure DelegatedKeys where
  set : String
  mfastKeys : MFKeys
  abeAttrK : AttrKey
  abePK : PubKey
deriving DecidableEq

/-- `SearcherConfig` (fields as constructed at owner.go:395-399). -/
structure SearcherConfig where
  setList : List String
  keys : DelegatedKeys
  serverAddr : String
deriving DecidableEq

/-- Oracle environment for the delegation operations: the ABE
attribute-key derivation primitive (which receives the master secret key
`abesk` as an argument, owner.go:372), the mfast delegation primitive,
and the owner's static configuration. -/
structure OwnerEnv where
  generateAttribKeys : List String → SecKey → Except String AttrKey
  abesk : SecKey
  abepk : PubKey
  mfastDelegateKeys : String → Except String MFKeys
  setList : List String
  serverAddr : String

/-- `DelegateKeys` (owner.go:371-388). -/
def DelegateKeys (env : OwnerEnv) (set : String) : Except String DelegatedKeys :=
  eBind (env.generateAttribKeys [set] env.abesk) fun abeAttrK =>
  eBind (env.mfastDelegateKeys set) fun mfastKeys =>
  .ok ⟨set, mfastKeys, abeAttrK, env.abepk⟩

/-- `GenSearcherConfig` (owner.go:390-405); the json serialization step
is abstracted to the `SearcherConfig` value it serializes. -/
def GenSearcherConfig (env : OwnerEnv) (set : String) : Except String SearcherConfig :=
  eBind (DelegateKeys env set) fun dk =>
  .ok ⟨env.setList, dk, env.serverAddr⟩

/-- Concrete find environment whose store returns one document and whose
ABE decryption always fails: the C2 failing input. -/
def bugFindEnv : FindEnv where
  genSearchTkn := fun _ _ => .ok (some 0)
  bsonMarshalTkn := fun t => .ok [t]
  find := fun _ => .ok ⟨"Ok", [[0]]⟩
  bsonUnmarshalDoc := fun _ => .ok ⟨fun _ => [0]⟩
  jsonUnmarshalCipher := fun _ => 0
  genAttribKeys := fun _ => .ok 0
  decrypt := fun _ _ => .error "act cannot be discharged"

/-- Concrete find environment whose store ignores the requested-field
list: used to witness the FindB/FindB2 agreement. -/
def agreeFindEnv : FindEnv where
  genSearchTkn := fun _ _ => .ok (some 1)
  bsonMarshalTkn := fun t => .ok [t]
  find := fun _ => .ok ⟨"Ok", [[2]]⟩
  bsonUnmarshalDoc := fun b => .ok ⟨fun _ => b⟩
  jsonUnmarshalCipher := fun b => b.headD 0
  genAttribKeys := fun _ => .ok 5
  decrypt := fun c _ => if c = 2 then .ok "u1" else .error "no"

/-- Concrete find environment where every trapdoor is absent and the
store matches nothing. -/
def absentFindEnv : FindEnv where
  genSearchTkn := fun _ _ => .ok none
  bsonMarshalTkn := fun t => .ok [t]
  find := fun _ => .ok ⟨"Ok", []⟩
  bsonUnmarshalDoc := fun _ => .ok ⟨fun _ => []⟩
  jsonUnmarshalCipher := fun _ => 0
  genAttribKeys := fun _ => .ok 0
  decrypt := fun _ _ => .ok ""

/-- Concrete find environment whose store reports a non-success status. -/
def statusFindEnv : FindEnv where
  genSearchTkn := fun _ _ => .ok (some 0)
  bsonMarshalTkn := fun t => .ok [t]
  find := fun _ => .ok ⟨"mongo: write exception", []⟩
  bsonUnmarshalDoc := fun _ => .ok ⟨fun _ => []⟩
  jsonUnmarshalCipher := fun _ => 0
  genAttribKeys := fun _ => .ok 0
  decrypt := fun _ _ => .ok ""

/-- A concrete record for witnesses. -/
def recA : Record := ⟨"u1", "loc1", "grpA", 0⟩

/-- Concrete insert environment whose update-tag generation fails. -/
def tagFailInsertEnv : InsertEnv where
  newObjectId := fun i => toString i
  genUpdateTkn := fun _ => .error "mfast: tag failure"
  jsonMarshalTkn := fun t => .ok [t]
  booleanToMSP := fun _ => .ok 0
  encrypt := fun _ _ => .ok 0
  jsonMarshalCipher := fun _ => .ok [0]
  formatTime := fun _ => "Thu, 01 Jan 1970 00:00:00 UTC"
  bsonMarshalDoc := fun _ => .ok [9]
  insert := fun _ => .ok ⟨"Ok"⟩

/-- Concrete insert environment where every primitive succeeds. -/
def okInsertEnv : InsertEnv where
  newObjectId := fun i => toString i
  genUpdateTkn := fun _ => .ok 0
  jsonMarshalTkn := fun t => .ok [t]
  booleanToMSP := fun _ => .ok 3
  encrypt := fun _ _ => .ok 4
  jsonMarshalCipher := fun c => .ok [c]
  formatTime := fun _ => "Thu, 01 Jan 1970 00:00:00 UTC"
  bsonMarshalDoc := fun _ => .ok [9]
  insert := fun _ => .ok ⟨"Ok"⟩

/-- Concrete insert environment whose store reports a non-success
status. -/
def statusInsertEnv : InsertEnv where
  newObjectId := fun i => toString i
  genUpdateTkn := fun _ => .ok 0
  jsonMarshalTkn := fun t => .ok [t]
  booleanToMSP := fun _ => .ok 3
  encrypt := fun _ _ => .ok 4
  jsonMarshalCipher := fun c => .ok [c]
  formatTime := fun _ => "Thu, 01 Jan 1970 00:00:00 UTC"
  bsonMarshalDoc := fun _ => .ok [9]
  insert := fun _ => .ok ⟨"duplicate key"⟩

/-- Concrete owner environment for the delegation witness. -/
def delegOwnerEnv : OwnerEnv where
  generateAttribKeys := fun _ sk => .ok (sk + 1)
  abesk := 41
  abepk := 7
  mfastDelegateKeys := fun _ => .ok 11
  setList := ["grpA", "grpB"]
  serverAddr := "127.0.0.1:50051"

/-- Every label in the cover sits between the starting level and 63. -/
theorem brcAux_mem_level (fuel level a b : Nat) (hlev : level ≤ 63) :
    ∀ lab ∈ brcAux fuel level a b, level ≤ lab.level ∧ lab.level ≤ 63 := by
  induction fuel generalizing level a b with
  | zero => intro lab h; simp [brcAux] at h
  | succ fuel ih =>
    intro lab h
    simp only [brcAux] at h
    split at h
    · simp at h
    · split at h
      · simp at h; subst h; exact ⟨Nat.le_refl _, hlev⟩
      · split at h
        · rename_i h63
          simp only [List.mem_cons, List.not_mem_nil, or_false] at h
          rcases h with rfl | rfl <;> exact ⟨Nat.le_refl _, hlev⟩
        · rename_i hba hne h63
          rcases List.mem_append.mp h with h' | h'
          · rcases List.mem_append.mp h' with h'' | h''
            · split at h'' <;> simp_all
            · split at h'' <;> simp_all
          · have := ih (level+1) ((a+1)/2) ((b-1)/2) (by omega) lab h'
            omega

/-- Counting lemma for the dyadic cover: a value `x` (viewed as a node
index at the current level) is covered by exactly one label of
`brcAux fuel level a b` when `a ≤ x ≤ b`, and by none otherwise. -/
theorem brcAux_count (fuel level a b x : Nat) (hlev : level ≤ 63)
    (hfuel : 64 ≤ fuel + level) (hb : b < 2 ^ (64 - level))
    (hx : x < 2 ^ (64 - level)) :
    (brcAux fuel level a b).countP
        (fun lab => decide (x / 2 ^ (lab.level - level) = lab.pre)) =
      if a ≤ x ∧ x ≤ b then 1 else 0 := by
  induction fuel generalizing level a b x with
  | zero => omega
  | succ fuel ih =>
    simp only [brcAux]
    split
    · rename_i hba
      rw [List.countP_nil, if_neg]
      omega
    · split
      · rename_i hba hab
        subst hab
        simp only [List.countP_cons, List.countP_nil, Nat.sub_self, pow_zero,
          Nat.div_one, Nat.zero_add, decide_eq_true_eq]
        split_ifs <;> omega
      · split
        · rename_i hba hab h63
          have hl : level = 63 := by omega
          subst hl
          have hb2 : b < 2 := by norm_num at hb; omega
          have hx2 : x < 2 := by norm_num at hx; omega
          simp only [List.countP_cons, List.countP_nil, Nat.sub_self, pow_zero,
            Nat.div_one, Nat.zero_add, decide_eq_true_eq]
          split_ifs <;> omega
        · rename_i hba hab h63
          have hlev' : level + 1 ≤ 63 := by omega
          have hpow : (2:Nat) ^ (64 - level) = 2 * 2 ^ (64 - (level+1)) := by
            rw [show 64 - level = (64 - (level+1)) + 1 by omega, pow_succ]
            ring
          have hb' : (b-1)/2 < 2 ^ (64 - (level+1)) := by
            rw [hpow] at hb; omega
          have hx' : x/2 < 2 ^ (64 - (level+1)) := by
            rw [hpow] at hx; omega
          have hrec := ih (level+1) ((a+1)/2) ((b-1)/2) (x/2) hlev'
            (by omega) hb' hx'
          have hcongr :
              (brcAux fuel (level+1) ((a+1)/2) ((b-1)/2)).countP
                (fun lab => decide (x / 2 ^ (lab.level - level) = lab.pre)) =
              (brcAux fuel (level+1) ((a+1)/2) ((b-1)/2)).countP
                (fun lab => decide (x / 2 / 2 ^ (lab.level - (level+1)) = lab.pre)) := by
            apply List.countP_congr
            intro lab hmem
            have hl := brcAux_mem_level fuel (level+1) ((a+1)/2) ((b-1)/2)
              hlev' lab hmem
            have h1 : lab.level - level = (lab.level - (level+1)) + 1 := by omega
            rw [h1, pow_succ, mul_comm, ← Nat.div_div_eq_div_mul]
          rw [List.countP_append, List.countP_append, hcongr, hrec]
          have hA : (if a % 2 = 1 then [(⟨level, a⟩ : IndexLabel)] else []).countP
              (fun lab => decide (x / 2 ^ (lab.level - level) = lab.pre)) =
              if a % 2 = 1 ∧ x = a then 1 else 0 := by
            split_ifs with h1 h2 <;>
              simp_all [List.countP_cons, List.countP_nil]
          have hB : (if b % 2 = 0 then [(⟨level, b⟩ : IndexLabel)] else []).countP
              (fun lab => decide (x / 2 ^ (lab.level - level) = lab.pre)) =
              if b % 2 = 0 ∧ x = b then 1 else 0 := by
            split_ifs with h1 h2 <;>
              simp_all [List.countP_cons, List.countP_nil]
          rw [hA, hB]
          split_ifs <;> omega

/-- Membership in the 64-keyword insertion chain characterized. -/
theorem mem_retriveTknsKWs (v : Nat) (lab : IndexLabel) :
    lab ∈ retriveTknsKWs v ↔ lab.level < 64 ∧ lab.pre = v / 2 ^ lab.level := by
  obtain ⟨l, p⟩ := lab
  simp only [retriveTknsKWs, makeTimeKW, List.mem_map, List.mem_range,
    IndexLabel.mk.injEq, Nat.shiftRight_eq_div_pow]
  constructor
  · rintro ⟨i, hi, rfl, rfl⟩; exact ⟨hi, rfl⟩
  · rintro ⟨h1, rfl⟩; exact ⟨l, h1, rfl, rfl⟩

/-- The number of cover labels of [a,b] that also occur in the insertion
chain of `v` is 1 inside the range and 0 outside. -/
theorem getBRCKWs_count (a b v : Nat) (hb : b < 2^64) (hv : v < 2^64) :
    (getBRCKWs a b).countP (fun lab => decide (lab ∈ retriveTknsKWs v)) =
      if a ≤ v ∧ v ≤ b then 1 else 0 := by
  have h := brcAux_count 64 0 a b v (by omega) (by omega)
    (by simpa using hb) (by simpa using hv)
  rw [← h]
  apply List.countP_congr
  intro lab hmem
  have hl := brcAux_mem_level 64 0 a b (by omega) lab hmem
  simp only [decide_eq_true_eq, mem_retriveTknsKWs, Nat.sub_zero]
  constructor
  · rintro ⟨h1, h2⟩; exact h2.symm
  · intro h2; exact ⟨by omega, h2.symm⟩

/-- C1: Range-cover correctness: for a ≤ b and any 64-bit value v, v lies
in [a,b] if and only if the label set produced by `getBRCKWs a b` and the
64-label ancestor chain `retriveTknsKWs v` built by `retriveTkns`
intersect, and for v in [a,b] the intersection contains exactly one
label. -/
theorem rangeCover_insertionLabels_correct (a b v : Nat) (_hab : a ≤ b)
    (hb : b < 2^64) (hv : v < 2^64) :
    ((a ≤ v ∧ v ≤ b) ↔ ∃ lab ∈ getBRCKWs a b, lab ∈ retriveTknsKWs v) ∧
    ((a ≤ v ∧ v ≤ b) →
      (getBRCKWs a b).countP (fun lab => decide (lab ∈ retriveTknsKWs v)) = 1) := by
  have h := getBRCKWs_count a b v hb hv
  refine ⟨⟨fun hin => ?_, fun hex => ?_⟩, fun hin => ?_⟩
  · rw [if_pos hin] at h
    have hpos : 0 < (getBRCKWs a b).countP
        (fun lab => decide (lab ∈ retriveTknsKWs v)) := by omega
    rcases List.countP_pos_iff.mp hpos with ⟨lab, hmem, hp⟩
    exact ⟨lab, hmem, of_decide_eq_true hp⟩
  · by_contra hout
    rw [if_neg hout] at h
    rcases hex with ⟨lab, hmem, hkw⟩
    exact absurd (decide_eq_true hkw) (by simpa using List.countP_eq_zero.mp h lab hmem)
  · rw [if_pos hin] at h
    exact h

/-- C1 witness: the concrete instance a = 2, b = 5, v = 4. -/
theorem rangeCover_insertionLabels_correct_witness :
    ((2 ≤ 4 ∧ 4 ≤ 5) ↔ ∃ lab ∈ getBRCKWs 2 5, lab ∈ retriveTknsKWs 4) ∧
    ((2 ≤ 4 ∧ 4 ≤ 5) →
      (getBRCKWs 2 5).countP (fun lab => decide (lab ∈ retriveTknsKWs 4)) = 1) :=
  rangeCover_insertionLabels_correct 2 5 4 (by decide) (by decide) (by decide)

/-- Inversion of the Go error check: a bound computation succeeds iff the
first step succeeds and the continuation succeeds on its value. -/
theorem eBind_eq_ok {α β : Type} (x : Except String α)
    (f : α → Except String β) (b : β) :
    eBind x f = .ok b ↔ ∃ a, x = .ok a ∧ f a = .ok b := by
  cases x <;> simp [eBind]

/-- An empty range gives an empty cover. -/
theorem brcAux_emptyRange (fuel level a b : Nat) (h : b < a) :
    brcAux fuel level a b = [] := by
  cases fuel with
  | zero => rfl
  | succ fuel => simp [brcAux, h]

/-- C4: Insertion labelling shape: `retriveTkns` issues, for each level
i = 0..63, exactly one "A"/UserId-keyed and one "B"/Location-keyed
update-token request whose time keyword encodes
`uint64(Time.Unix()) >> i` together with i — 128 requests in total. -/
theorem retriveTknReqs_shape (id : String) (rec : Record) :
    (retriveTknReqs id rec).length = 128 ∧
    retriveTknReqs id rec = (List.range 64).flatMap (fun i =>
      [⟨id, rec.Set, ⟨"A:" ++ rec.UserId ++ ":", ⟨i, toUint64 rec.Time >>> i⟩⟩, "add"⟩,
       ⟨id, rec.Set, ⟨"B:" ++ rec.Location ++ ":", ⟨i, toUint64 rec.Time >>> i⟩⟩, "add"⟩]) :=
  ⟨rfl, rfl⟩

/-- C10: Pre-epoch timestamps wrap modulo 2^64: `uint64(t.Unix())` maps a
negative unix time s to 2^64 + s, so a query interval with a pre-epoch
lower bound and a post-epoch upper bound converts to a wrapped pair with
lower > upper, whose range cover is empty and so cannot denote the
intended interval. -/
theorem preEpoch_wraps (sA sB : Int) (h1 : -(2^63) ≤ sA) (h2 : sA < 0)
    (h3 : 0 ≤ sB) (h4 : sB < 2^63) :
    toUint64 sA = (2^64 + sA).toNat ∧ toUint64 sB < toUint64 sA ∧
    getBRCKWs (toUint64 sA) (toUint64 sB) = [] := by
  have e63 : ((2:Int)^63) = 9223372036854775808 := by norm_num
  have e64 : ((2:Int)^64) = 18446744073709551616 := by norm_num
  rw [e63] at h1 h4
  have ha : toUint64 sA = ((2:Int)^64 + sA).toNat := by
    unfold toUint64; rw [e64]; omega
  have hb : toUint64 sB = sB.toNat := by
    unfold toUint64; rw [e64]; omega
  have hlt : toUint64 sB < toUint64 sA := by
    rw [ha, hb, e64]; omega
  exact ⟨ha, hlt, brcAux_emptyRange 64 0 _ _ hlt⟩

/-- C10 witness: sA = -1 (one second before the epoch), sB = 0. -/
theorem preEpoch_wraps_witness :
    toUint64 (-1) = (2^64 + (-1)).toNat ∧ toUint64 0 < toUint64 (-1) ∧
    getBRCKWs (toUint64 (-1)) (toUint64 0) = [] :=
  preEpoch_wraps (-1) 0 (by norm_num) (by norm_num) (by norm_num) (by norm_num)

/-- C2 failing input: the store returns one matching document and the ABE
decryption of its UserId field fails; `FindB` nevertheless returns
success with the zero value "" as the UserId (owner.go:275 discards the
`Decrypt` error), instead of reporting the failure for that document. -/
theorem findB_swallows_decrypt_error :
    FindB bugFindEnv "grpA" "loc1" 0 0 = .ok [⟨""⟩] := rfl

/-- C9: a nil search token (absent trapdoor) is skipped and the loop
continues; and when the store reports success with an empty document
set, `FindB`/`FindB2` return an empty result slice with no error. -/
theorem absent_skipped_empty_ok (env : FindEnv) (set loc : String) (tA tB : Int) :
    (∀ kw kws, env.genSearchTkn set kw = .ok none →
      genFindTkns env set (kw :: kws) = genFindTkns env set kws) ∧
    (∀ tkns, genFindTkns env set (findKWs loc tA tB) = .ok tkns →
      env.find ⟨["UserId"], tkns⟩ = .ok ⟨"Ok", []⟩ →
      FindB env set loc tA tB = .ok []) ∧
    (∀ tkns, genFindTkns env set (findKWs loc tA tB) = .ok tkns →
      env.find ⟨["UserId", "Set"], tkns⟩ = .ok ⟨"Ok", []⟩ →
      FindB2 env set loc tA tB = .ok []) := by
  refine ⟨fun kw kws h => ?_, fun tkns h1 h2 => ?_, fun tkns h1 h2 => ?_⟩
  · simp [genFindTkns, h]
  · simp [FindB, h1, eBind, h2, findBDocs]
  · simp [FindB2, h1, eBind, h2, findB2Docs]

/-- C9 witness: all trapdoors absent, store matches nothing. -/
theorem absent_skipped_empty_ok_witness :
    FindB absentFindEnv "grpA" "loc1" 0 0 = .ok [] :=
  (absent_skipped_empty_ok absentFindEnv "grpA" "loc1" 0 0).2.1 [] rfl rfl

/-- The token-generation loop never consults the store client. -/
theorem genUpdTkns_store_irrel (env : InsertEnv)
    (store : InsertQuery → Except String InsertResponse) (reqs : List UpdReq) :
    genUpdTkns { env with insert := store } reqs = genUpdTkns env reqs := by
  induction reqs with
  | nil => rfl
  | cons r rest ih => simp [genUpdTkns, ih]

/-- The per-record encryption never consults the store client. -/
theorem encRecord_store_irrel (env : InsertEnv)
    (store : InsertQuery → Except String InsertResponse) (i : Nat) (rec : Record) :
    encRecord { env with insert := store } i rec = encRecord env i rec := by
  simp only [encRecord, retriveTkns]
  rw [genUpdTkns_store_irrel]

/-- The whole batch-encryption loop never consults the store client. -/
theorem encRecords_store_irrel (env : InsertEnv)
    (store : InsertQuery → Except String InsertResponse) (i : Nat)
    (recs : List Record) :
    encRecords { env with insert := store } i recs = encRecords env i recs := by
  induction recs generalizing i with
  | nil => rfl
  | cons r rest ih => simp [encRecords, encRecord_store_irrel, ih]

/-- C3: Insert batch atomicity before network: if encrypting or tagging
any record of the batch fails, `Insert` returns that error no matter how
the Remote Store client behaves — the store RPC is never reached. -/
theorem insert_atomic_before_network (env : InsertEnv)
    (store : InsertQuery → Except String InsertResponse) (recs : List Record)
    (e : String) (h : encRecords env 0 recs = .error e) :
    Insert { env with insert := store } recs = .error e := by
  unfold Insert
  rw [encRecords_store_irrel, h]
  rfl

/-- C3 witness: a batch of one record whose update-tag generation fails,
run against a store that would accept anything. -/
theorem insert_atomic_before_network_witness :
    Insert { tagFailInsertEnv with insert := fun _ => .ok ⟨"Ok"⟩ } [recA] =
      .error "mfast: tag failure" :=
  insert_atomic_before_network tagFailInsertEnv (fun _ => .ok ⟨"Ok"⟩) [recA]
    "mfast: tag failure" rfl

/-- C7: One policy per document: whenever `Insert`'s per-record step
succeeds, there is a single access structure, compiled once from the
record's Set label, under which all four ciphertext fields of the
resulting document were encrypted. -/
theorem insert_single_policy (env : InsertEnv) (i : Nat) (rec : Record)
    (doc : ByteStr) (tkns : List ByteStr)
    (h : encRecord env i rec = .ok (doc, tkns)) :
    ∃ msp, env.booleanToMSP rec.Set = .ok msp ∧
      ∃ cU cL cT cS,
        env.encrypt rec.UserId msp = .ok cU ∧
        env.encrypt rec.Location msp = .ok cL ∧
        env.encrypt (env.formatTime rec.Time) msp = .ok cT ∧
        env.encrypt rec.Set msp = .ok cS ∧
        ∃ bU bL bT bS,
          env.jsonMarshalCipher cU = .ok bU ∧
          env.jsonMarshalCipher cL = .ok bL ∧
          env.jsonMarshalCipher cT = .ok bT ∧
          env.jsonMarshalCipher cS = .ok bS ∧
          env.bsonMarshalDoc ⟨env.newObjectId i, bU, bL, bT, bS⟩ = .ok doc := by
  simp only [encRecord, eBind_eq_ok] at h
  obtain ⟨partTkns, hptk, msp, hmsp, cU, hcU, bU, hbU, cL, hcL, bL, hbL,
    cT, hcT, bT, hbT, cS, hcS, bS, hbS, bytesRec, hbr, hfin⟩ := h
  obtain ⟨h1, h2⟩ := Prod.mk.injEq .. ▸ (Except.ok.injEq .. ▸ hfin :
    (bytesRec, partTkns) = (doc, tkns))
  subst h1
  exact ⟨msp, hmsp, cU, cL, cT, cS, hcU, hcL, hcT, hcS,
    bU, bL, bT, bS, hbU, hbL, hbT, hbS, hbr⟩

/-- C7 witness: a concrete all-successful environment and record. -/
theorem insert_single_policy_witness :
    ∃ msp, okInsertEnv.booleanToMSP recA.Set = .ok msp ∧
      ∃ cU cL cT cS,
        okInsertEnv.encrypt recA.UserId msp = .ok cU ∧
        okInsertEnv.encrypt recA.Location msp = .ok cL ∧
        okInsertEnv.encrypt (okInsertEnv.formatTime recA.Time) msp = .ok cT ∧
        okInsertEnv.encrypt recA.Set msp = .ok cS ∧
        ∃ bU bL bT bS,
          okInsertEnv.jsonMarshalCipher cU = .ok bU ∧
          okInsertEnv.jsonMarshalCipher cL = .ok bL ∧
          okInsertEnv.jsonMarshalCipher cT = .ok bT ∧
          okInsertEnv.jsonMarshalCipher cS = .ok bS ∧
          okInsertEnv.bsonMarshalDoc
            ⟨okInsertEnv.newObjectId 0, bU, bL, bT, bS⟩ = .ok [9] :=
  insert_single_policy okInsertEnv 0 recA [9] (List.replicate 128 [0]) rfl

/-- C8: Non-success store status surfaces as an error carrying exactly
that message, for both the Find and the Insert round trip, and the
operation succeeds only when the status is the "Ok" marker. -/
theorem status_surfaced (fenv : FindEnv) (ienv : InsertEnv) (set loc : String)
    (tA tB : Int) (recs : List Record) :
    (∀ tkns msg docs, genFindTkns fenv set (findKWs loc tA tB) = .ok tkns →
      fenv.find ⟨["UserId"], tkns⟩ = .ok ⟨msg, docs⟩ →
      ((msg ≠ "Ok" → FindB fenv set loc tA tB = .error msg) ∧
       (∀ res, FindB fenv set loc tA tB = .ok res → msg = "Ok"))) ∧
    (∀ docs tkns msg, encRecords ienv 0 recs = .ok (docs, tkns) →
      ienv.insert ⟨docs, tkns⟩ = .ok ⟨msg⟩ →
      ((msg ≠ "Ok" → Insert ienv recs = .error msg) ∧
       (Insert ienv recs = .ok () → msg = "Ok"))) := by
  constructor
  · intro tkns msg docs h1 h2
    have hred : FindB fenv set loc tA tB =
        if msg ≠ "Ok" then .error msg else findBDocs fenv set docs := by
      simp [FindB, h1, eBind, h2]
    constructor
    · intro hne; rw [hred, if_pos hne]
    · intro res hok
      by_contra hne
      rw [hred, if_pos hne] at hok
      exact Except.noConfusion hok
  · intro docs tkns msg h1 h2
    have hred : Insert ienv recs =
        if msg ≠ "Ok" then .error msg else .ok () := by
      simp [Insert, h1, eBind, h2]
    constructor
    · intro hne; rw [hred, if_pos hne]
    · intro hok
      by_contra hne
      rw [hred, if_pos hne] at hok
      exact Except.noConfusion hok

/-- C8 witness: a store that answers Find with a mongo error string and a
store that answers Insert with a duplicate-key error string. -/
theorem status_surfaced_witness :
    FindB statusFindEnv "grpA" "loc1" 0 0 = .error "mongo: write exception" ∧
    Insert statusInsertEnv [] = .error "duplicate key" :=
  ⟨((status_surfaced statusFindEnv statusInsertEnv "grpA" "loc1" 0 0 []).1
      [[0]] "mongo: write exception" [] rfl rfl).1 (by decide),
   ((status_surfaced statusFindEnv statusInsertEnv "grpA" "loc1" 0 0 []).2
      [] [] "duplicate key" rfl rfl).1 (by decide)⟩

/-- C5: Delegation never leaks the master secret key: the value returned
by `DelegateKeys` consists of exactly the partition name, the mfast
index-delegation secret, the attribute key derived for that partition,
and the public key; `GenSearcherConfig` wraps exactly that bundle with
the partition list and server address. The master secret key `abesk`
reaches only the attribute-key derivation primitive and is not part of
either result. -/
theorem delegation_no_msk (env : OwnerEnv) (set : String) :
    (∀ dk, DelegateKeys env set = .ok dk ↔
      ∃ ak mk, env.generateAttribKeys [set] env.abesk = .ok ak ∧
        env.mfastDelegateKeys set = .ok mk ∧
        dk = ⟨set, mk, ak, env.abepk⟩) ∧
    (∀ cfg, GenSearcherConfig env set = .ok cfg ↔
      ∃ dk, DelegateKeys env set = .ok dk ∧
        cfg = ⟨env.setList, dk, env.serverAddr⟩) := by
  constructor
  · intro dk
    simp only [DelegateKeys, eBind_eq_ok]
    constructor
    · rintro ⟨ak, hak, mk, hmk, hfin⟩
      exact ⟨ak, mk, hak, hmk, (Except.ok.injEq .. ▸ hfin : _ = dk).symm⟩
    · rintro ⟨ak, mk, hak, hmk, rfl⟩
      exact ⟨ak, hak, mk, hmk, rfl⟩
  · intro cfg
    simp only [GenSearcherConfig, eBind_eq_ok]
    constructor
    · rintro ⟨dk, hdk, hfin⟩
      exact ⟨dk, hdk, (Except.ok.injEq .. ▸ hfin : _ = cfg).symm⟩
    · rintro ⟨dk, hdk, rfl⟩
      exact ⟨dk, hdk, rfl⟩

/-- C5 witness: a concrete owner environment. -/
theorem delegation_no_msk_witness :
    DelegateKeys delegOwnerEnv "grpA" = .ok ⟨"grpA", 11, 42, 7⟩ :=
  ((delegation_no_msk delegOwnerEnv "grpA").1 ⟨"grpA", 11, 42, 7⟩).mpr
    ⟨42, 11, rfl, rfl, rfl⟩

/-- `FindB`'s document loop is the field-parameterized loop at
`["UserId"]`. -/
theorem findBDocs_eq_findRangeDocs (env : FindEnv) (set : String)
    (docs : List ByteStr) :
    findBDocs env set docs =
      (findRangeDocs env set ["UserId"] docs).map
        (List.map (fun vs => (⟨vs.headD ""⟩ : FindBResult))) := by
  induction docs with
  | nil => rfl
  | cons d rest ih =>
    simp only [findBDocs, findRangeDocs]
    cases env.bsonUnmarshalDoc d with
    | error e => rfl
    | ok doc =>
      cases env.genAttribKeys set with
      | error e => rfl
      | ok k =>
        rw [ih]
        cases findRangeDocs env set ["UserId"] rest with
        | error e => rfl
        | ok res => rfl

/-- `FindB2`'s document loop is the field-parameterized loop at
`["UserId", "Set"]`. -/
theorem findB2Docs_eq_findRangeDocs (env : FindEnv) (set : String)
    (docs : List ByteStr) :
    findB2Docs env set docs =
      (findRangeDocs env set ["UserId", "Set"] docs).map
        (List.map (fun vs =>
          (⟨vs.headD "", (vs.drop 1).headD ""⟩ : FindB2Result))) := by
  induction docs with
  | nil => rfl
  | cons d rest ih =>
    simp only [findB2Docs, findRangeDocs]
    cases env.bsonUnmarshalDoc d with
    | error e => rfl
    | ok doc =>
      cases env.genAttribKeys set with
      | error e => rfl
      | ok k =>
        rw [ih]
        cases findRangeDocs env set ["UserId", "Set"] rest with
        | error e => rfl
        | ok res => rfl

/-- Given the same documents, the two per-document loops decrypt the
UserId field identically. -/
theorem findB2Docs_userId (env : FindEnv) (set : String) (docs : List ByteStr) :
    (findB2Docs env set docs).map (List.map FindB2Result.UserId) =
      (findBDocs env set docs).map (List.map FindBResult.UserId) := by
  induction docs with
  | nil => rfl
  | cons d rest ih =>
    simp only [findB2Docs, findBDocs]
    cases env.bsonUnmarshalDoc d with
    | error e => rfl
    | ok doc =>
      cases env.genAttribKeys set with
      | error e => rfl
      | ok k =>
        cases h2 : findB2Docs env set rest <;> cases h1 : findBDocs env set rest <;>
          rw [h2, h1] at ih <;> simp [Except.map, eBind] at ih ⊢ <;> simp [ih]

/-- C6: `FindB` and `FindB2` are the same algorithm parameterized by the
requested field list: each equals the projection of the parameterized
`FindRange` at its field list, and whenever the store's behaviour does
not depend on the requested field list, the UserId components of the
`FindB2` results (and the error outcome) coincide with those of
`FindB`. -/
theorem findB2_findB_same_algorithm (env : FindEnv) (set loc : String)
    (tA tB : Int) :
    (FindB env set loc tA tB =
      (FindRange env set loc tA tB ["UserId"]).map
        (List.map (fun vs => (⟨vs.headD ""⟩ : FindBResult)))) ∧
    (FindB2 env set loc tA tB =
      (FindRange env set loc tA tB ["UserId", "Set"]).map
        (List.map (fun vs =>
          (⟨vs.headD "", (vs.drop 1).headD ""⟩ : FindB2Result)))) ∧
    ((∀ f1 f2 tkns, env.find ⟨f1, tkns⟩ = env.find ⟨f2, tkns⟩) →
      (FindB2 env set loc tA tB).map (List.map FindB2Result.UserId) =
        (FindB env set loc tA tB).map (List.map FindBResult.UserId)) := by
  refine ⟨?_, ?_, ?_⟩
  · unfold FindB FindRange
    cases genFindTkns env set (findKWs loc tA tB) with
    | error e => rfl
    | ok tkns =>
      simp only [eBind]
      cases env.find ⟨["UserId"], tkns⟩ with
      | error e => rfl
      | ok res =>
        by_cases hm : res.msg = "Ok"
        · simp [hm, findBDocs_eq_findRangeDocs]
        · simp [hm, Except.map]
  · unfold FindB2 FindRange
    cases genFindTkns env set (findKWs loc tA tB) with
    | error e => rfl
    | ok tkns =>
      simp only [eBind]
      cases env.find ⟨["UserId", "Set"], tkns⟩ with
      | error e => rfl
      | ok res =>
        by_cases hm : res.msg = "Ok"
        · simp [hm, findB2Docs_eq_findRangeDocs]
        · simp [hm, Except.map]
  · intro hfind
    unfold FindB FindB2
    cases genFindTkns env set (findKWs loc tA tB) with
    | error e => rfl
    | ok tkns =>
      simp only [eBind]
      rw [hfind ["UserId", "Set"] ["UserId"] tkns]
      cases env.find ⟨["UserId"], tkns⟩ with
      | error e => rfl
      | ok res =>
        by_cases hm : res.msg = "Ok"
        · simp [hm, findB2Docs_userId]
        · simp [hm, Except.map]

/-- C6 witness: a concrete environment whose store ignores the requested
field list. -/
theorem findB2_findB_same_algorithm_witness :
    (FindB2 agreeFindEnv "grpA" "loc1" 0 0).map (List.map FindB2Result.UserId) =
      (FindB agreeFindEnv "grpA" "loc1" 0 0).map (List.map FindBResult.UserId) :=
  (findB2_findB_same_algorithm agreeFindEnv "grpA" "loc1" 0 0).2.2
    (fun _ _ _ => rfl)

end Db
